import Mathlib

/-!
A shallow embedding of the relay-protocol-mcp-server core pipeline:
the Zod-based schema validators, the axios error-classification
interceptor of `RelayClient`, the MCP tool dispatch handler of
`src/index.ts`, the tool-registry aggregation of `src/tools/index.ts`,
and the pagination helper `fetchAllPages` of `src/utils/pagination.ts`.
-/

set_option autoImplicit false

namespace RelayMCP

/-- JSON values, the raw argument/result currency of every tool call. -/
inductive Json where
  | null
  | bool (b : Bool)
  | num (n : Int)
  | str (s : String)
  | arr (elems : List Json)
  | obj (fields : List (String × Json))
deriving Repr

/-- First-match lookup of a key in a JSON object's field list
(models JS property access on the parsed argument objects, whose keys
are unique). -/
def lookupField : List (String × Json) → String → Option Json
  | [], _ => none
  | (k, v) :: rest, key => if k = key then some v else lookupField rest key

/-- Property access `j?.[key]`: `undefined` (modeled `none`) unless `j`
is an object carrying the key. -/
def getKey (j : Json) (key : String) : Option Json :=
  match j with
  | .obj kvs => lookupField kvs key
  | _ => none

/-- The keys of a JSON object (empty for non-objects). -/
def jsonKeys : Json → List String
  | .obj kvs => kvs.map Prod.fst
  | _ => []

/-- The `typeof`-style name Zod reports for a received value. -/
def typeName : Json → String
  | .null => "null"
  | .bool _ => "boolean"
  | .num _ => "number"
  | .str _ => "string"
  | .arr _ => "array"
  | .obj _ => "object"

/-- JavaScript truthiness of a JSON value (used by the `||` chains in
the error interceptor). -/
def jsTruthy : Json → Bool
  | .null => false
  | .bool b => b
  | .num n => n != 0
  | .str s => s != ""
  | .arr _ => true
  | .obj _ => true

/-- JavaScript `String(v)` coercion, as applied by the `Error`
constructor to a non-string message value (an array, which JS would
join element-wise, is approximated by the empty join; no claim
involves an array-valued message). -/
def jsToString : Json → String
  | .null => "null"
  | .bool b => cond b "true" "false"
  | .num n => toString n
  | .str s => s
  | .arr _ => ""
  | .obj _ => "[object Object]"

/-! ## Zod schema model

The repository validates every tool call with Zod v3 object schemas
built from `z.string()`, `z.number()` (optionally `.min`/`.max`),
`z.enum([...])`, each possibly `.optional()`.  A plain `z.object`
(no `.strict()`) validates the declared fields, aggregates an issue for
every offending field, and silently strips unknown keys. -/

/-- The Zod field types used by the tool schemas. -/
inductive ZodTy where
  | string
  | number (lo : Option Int) (hi : Option Int)
  | enumOf (values : List String)
deriving DecidableEq

/-- One declared field of a `z.object` schema. -/
structure ZodField where
  name : String
  ty : ZodTy
  optional : Bool
deriving DecidableEq

/-- A Zod validation issue: the offending path and its message. -/
abbrev ZodIssue := List String × String

/-- Check a present value against a field type, returning the messages
of every failed check (Zod's number schema runs its `.min`/`.max`
checks only when the value is a number, and aggregates both). -/
def checkTy : ZodTy → Json → List String
  | .string, .str _ => []
  | .string, v => [s!"Expected string, received {typeName v}"]
  | .number lo hi, .num n =>
      (match lo with
       | some l => if n < l then [s!"Number must be greater than or equal to {l}"] else []
       | none => []) ++
      (match hi with
       | some h => if h < n then [s!"Number must be less than or equal to {h}"] else []
       | none => [])
  | .number _ _, v => [s!"Expected number, received {typeName v}"]
  | .enumOf vs, .str s =>
      if vs.contains s then [] else ["Invalid enum value"]
  | .enumOf _, v => [s!"Expected string, received {typeName v}"]

/-- Walk the declared fields of a `z.object` schema over the input
object's field list, accumulating (in declaration order) every issue
and the successfully parsed output fields.  A required field absent
from the input yields Zod's `Required` issue; unknown input keys are
not consulted (strip mode). -/
def zodWalk (kvs : List (String × Json)) :
    List ZodField → List ZodIssue × List (String × Json)
  | [] => ([], [])
  | f :: rest =>
      let r := zodWalk kvs rest
      match lookupField kvs f.name with
      | none =>
          if f.optional then r
          else (([f.name], "Required") :: r.1, r.2)
      | some v =>
          match checkTy f.ty v with
          | [] => (r.1, (f.name, v) :: r.2)
          | msgs => (msgs.map (fun m => ([f.name], m)) ++ r.1, r.2)

/-- `schema.parse(input)` for a plain (strip-mode) `z.object` schema:
a non-object input is rejected outright; otherwise all declared fields
are validated, every issue is aggregated, and on success the output
object carries exactly the declared fields present in the input —
unknown keys are silently dropped. -/
def zodParse (fields : List ZodField) (input : Json) :
    Except (List ZodIssue) Json :=
  match input with
  | .obj kvs =>
      match zodWalk kvs fields with
      | ([], out) => .ok (.obj out)
      | (issues, _) => .error issues
  | v => .error [([], s!"Expected object, received {typeName v}")]

/-! ## Tool schemas from the source -/

/-- `getQuoteSchema` of `src/tools/quotes.ts`. -/
def getQuoteSchema : List ZodField :=
  [ ⟨"user", .string, false⟩,
    ⟨"recipient", .string, true⟩,
    ⟨"originChainId", .number none none, false⟩,
    ⟨"destinationChainId", .number none none, false⟩,
    ⟨"originCurrency", .string, false⟩,
    ⟨"destinationCurrency", .string, false⟩,
    ⟨"amount", .string, false⟩,
    ⟨"tradeType", .enumOf ["EXACT_INPUT", "EXACT_OUTPUT"], true⟩ ]

/-- `getRequestsSchema` of `src/tools/requests.ts`. -/
def getRequestsSchema : List ZodField :=
  [ ⟨"limit", .number (some 1) (some 50), true⟩,
    ⟨"continuation", .string, true⟩,
    ⟨"user", .string, true⟩,
    ⟨"hash", .string, true⟩,
    ⟨"originChainId", .number none none, true⟩,
    ⟨"destinationChainId", .number none none, true⟩,
    ⟨"privateChainsToInclude", .string, true⟩,
    ⟨"id", .string, true⟩,
    ⟨"startTimestamp", .number none none, true⟩,
    ⟨"endTimestamp", .number none none, true⟩,
    ⟨"startBlock", .number none none, true⟩,
    ⟨"endBlock", .number none none, true⟩,
    ⟨"chainId", .string, true⟩,
    ⟨"referrer", .string, true⟩,
    ⟨"sortBy", .enumOf ["createdAt", "updatedAt"], true⟩,
    ⟨"sortDirection", .enumOf ["asc", "desc"], true⟩ ]

/-- The property names declared by the advertised JSON `inputSchema` of
`relay_get_quote` (`src/tools/quotes.ts`), which also declares
`additionalProperties: false`. -/
def getQuoteInputSchemaProperties : List String :=
  [ "user", "recipient", "originChainId", "destinationChainId",
    "originCurrency", "destinationCurrency", "amount", "tradeType" ]

/-- The `additionalProperties` flag of the advertised `inputSchema` of
`relay_get_quote`. -/
def getQuoteInputSchemaAdditionalProperties : Bool := false

/-- The input keys a closed (`additionalProperties: false`) JSON schema
with the given declared properties would reject. -/
def closedSchemaViolations (properties : List String) (input : Json) :
    List String :=
  (jsonKeys input).filter (fun k => ¬ properties.contains k)

/-! ## Error taxonomy and the `RelayClient` response interceptor

`src/client/errors.ts` defines `RelayAPIError`, `RelayConnectionError`
and `RelayValidationError`; a failing Zod `parse` throws a `ZodError`;
anything else is a generic `Error`. -/

/-- The errors a tool handler can throw into the dispatch layer. -/
inductive ThrownError where
  | api (message : String) (statusCode : Int) (responseData : Json)
        (requestData : Option Json)
  | connection (message : String) (originalError : Option String)
  | validation (message : String) (validationErrors : Option Json)
  | zod (issues : List ZodIssue)
  | generic (message : String)

/-- The `ZodError.message` rendering of an issue list (a JSON dump of
the issues; the field paths and messages appear verbatim). -/
def zodMessage (issues : List ZodIssue) : String :=
  "[" ++ String.intercalate ", "
    (issues.map (fun i =>
      "\x7b path: [" ++ String.intercalate ", " i.1 ++ "], message: " ++ i.2 ++ " \x7d"))
  ++ "]"

/-- The rejection an axios call hands to the response interceptor:
an optional error code, the received response (status and body) when
one arrived, the request body from `error.config?.data`, and the
transport error's own message. -/
structure AxiosErrorModel where
  code : Option String
  response : Option (Int × Json)
  configData : Option Json
  errMessage : String

/-- `data?.message || data?.error || "HTTP <status> error"` of the
interceptor in `RelayClient.setupInterceptors`. -/
def apiErrorMessage (status : Int) (data : Json) : String :=
  match getKey data "message" with
  | some v =>
      if jsTruthy v then jsToString v else
        match getKey data "error" with
        | some w => if jsTruthy w then jsToString w else s!"HTTP {status} error"
        | none => s!"HTTP {status} error"
  | none =>
      match getKey data "error" with
      | some w => if jsTruthy w then jsToString w else s!"HTTP {status} error"
      | none => s!"HTTP {status} error"

/-- The response interceptor's rejection handler
(`RelayClient.setupInterceptors`): timeout/abort codes become
`RelayConnectionError "Request timed out"`, a missing response becomes
`RelayConnectionError "Network error - no response received"`, and any
received error response becomes a `RelayAPIError` carrying the status,
the response body and the request body. -/
def classifyAxiosError (e : AxiosErrorModel) : ThrownError :=
  if e.code = some "ECONNABORTED" ∨ e.code = some "ETIMEDOUT" then
    .connection "Request timed out" (some e.errMessage)
  else
    match e.response with
    | none => .connection "Network error - no response received" (some e.errMessage)
    | some (status, data) =>
        .api (apiErrorMessage status data) status data e.configData

/-- Whether a thrown error is one of the two structured variants the
client interceptor produces (never a raw transport exception). -/
def isClientStructured : ThrownError → Bool
  | .api _ _ _ _ => true
  | .connection _ _ => true
  | _ => false

/-! ## Tool handlers

Each handler (`src/tools/*.ts`) parses its raw arguments with its Zod
schema and only then invokes the corresponding typed client method;
the client is modeled as an oracle from validated parameters to a
result or a thrown error. -/

/-- The shared handler shape of every tool
(`const params = schema.parse(args); return await client.method(params)`):
a failing parse throws the `ZodError` before the client is consulted;
a successful parse forwards exactly the validated parameters. -/
def toolHandler (schema : List ZodField)
    (client : Json → Except ThrownError Json) (args : Json) :
    Except ThrownError Json :=
  match zodParse schema args with
  | .error issues => .error (.zod issues)
  | .ok params => client params

/-- Handler of `relay_get_quote` (`src/tools/quotes.ts`). -/
def relayGetQuoteHandler (client : Json → Except ThrownError Json) :
    Json → Except ThrownError Json :=
  toolHandler getQuoteSchema client

/-- Handler of `relay_get_requests` (`src/tools/requests.ts`). -/
def relayGetRequestsHandler (client : Json → Except ThrownError Json) :
    Json → Except ThrownError Json :=
  toolHandler getRequestsSchema client

/-- A client oracle that records the parameters it was invoked with by
returning them unchanged (used to observe exactly what a handler
forwards upstream). -/
def echoClient : Json → Except ThrownError Json := fun params => .ok params

/-! ## The call-tool dispatch handler of `src/index.ts` -/

/-- The result object the `CallToolRequestSchema` handler returns:
the JSON body serialized into `content[0].text`, and the `isError`
marker (absent, i.e. `false`, on success). -/
structure CallToolResult where
  body : Json
  isError : Bool
deriving Repr

/-- The `catch` block of the `CallToolRequestSchema` handler: a
`RelayAPIError` and a `RelayConnectionError` get their dedicated error
shapes; everything else — including a `ZodError` and the never-matched
`RelayValidationError` (not imported in `src/index.ts`) — falls into
the `Unexpected error` catch-all.  (`JSON.stringify` drops
`undefined`-valued keys; the unverifiable `stack` text is omitted.) -/
def handleCaught : ThrownError → CallToolResult
  | .api message statusCode responseData requestData =>
      ⟨.obj [("error", .str message),
             ("details", .obj ([("statusCode", .num statusCode),
                                ("response", responseData)] ++
               (match requestData with
                | some r => [("request", r)]
                | none => [])))], true⟩
  | .connection message originalError =>
      ⟨.obj [("error", .str "Connection error"),
             ("details", .obj ([("message", .str message)] ++
               (match originalError with
                | some m => [("originalError", .str m)]
                | none => [])))], true⟩
  | .validation message _ =>
      ⟨.obj [("error", .str "Unexpected error"),
             ("details", .obj [("message", .str message)])], true⟩
  | .zod issues =>
      ⟨.obj [("error", .str "Unexpected error"),
             ("details", .obj [("message", .str (zodMessage issues))])], true⟩
  | .generic message =>
      ⟨.obj [("error", .str "Unexpected error"),
             ("details", .obj [("message", .str message)])], true⟩

/-- First-match tool lookup in the dispatch table. -/
def lookupTool (tools : List (String × (Json → Except ThrownError Json)))
    (name : String) : Option (Json → Except ThrownError Json) :=
  match tools with
  | [] => none
  | (k, h) :: rest => if k = name then some h else lookupTool rest name

/-- The `CallToolRequestSchema` handler: an unknown name throws a
`Tool not found` error (outside the `try`); a found tool's handler runs
inside the `try`, its success value is returned un-marked and any
thrown error is converted by the `catch` block into an error-marked
result — the exception never escapes. -/
def callTool (tools : List (String × (Json → Except ThrownError Json)))
    (name : String) (args : Json) : Except String CallToolResult :=
  match lookupTool tools name with
  | none => .error s!"Tool not found: {name}"
  | some h =>
      .ok (match h args with
        | .ok result => ⟨result, false⟩
        | .error e => handleCaught e)

/-- Following the spec's words (section 7): an error result is marked
as an error and carries a string `error` message together with an
object `details` holding the full per-category payload — status code
AND response body AND request body for upstream API errors, the message
AND the underlying-cause description for connection errors, diagnostic
text for anything else.  Used only to compare the spec's claimed error
surface with the one the dispatch layer actually produces. -/
def specErrorPayload (e : ThrownError) (r : CallToolResult) : Bool :=
  r.isError &&
  (match getKey r.body "error" with
   | some (.str _) => true
   | _ => false) &&
  (match getKey r.body "details" with
   | some (.obj d) =>
       (match e with
        | .api _ _ _ _ =>
            (lookupField d "statusCode").isSome &&
            (lookupField d "response").isSome &&
            (lookupField d "request").isSome
        | .connection _ _ =>
            (lookupField d "message").isSome &&
            (lookupField d "originalError").isSome
        | _ => (lookupField d "message").isSome)
   | _ => false)

/-- The error-result payload the catch block actually guarantees:
marked as an error, with a string `error` message and an object
`details` carrying, for upstream API errors, the status code and the
response body always and the request body exactly when the original
request had one (`error.config?.data` is `undefined` for GET requests
and `JSON.stringify` drops the key); for connection errors, the
message always and the underlying-cause description exactly when one
was recorded; diagnostic text for anything else. -/
def errorResultPayload (e : ThrownError) (r : CallToolResult) : Bool :=
  r.isError &&
  (match getKey r.body "error" with
   | some (.str _) => true
   | _ => false) &&
  (match getKey r.body "details" with
   | some (.obj d) =>
       (match e with
        | .api _ _ _ requestData =>
            (lookupField d "statusCode").isSome &&
            (lookupField d "response").isSome &&
            ((lookupField d "request").isSome == requestData.isSome)
        | .connection _ originalError =>
            (lookupField d "message").isSome &&
            ((lookupField d "originalError").isSome == originalError.isSome)
        | _ => (lookupField d "message").isSome)
   | _ => false)

/-! ## Tool registry aggregation (`src/tools/index.ts`)

`createAllTools` merges the seven per-category tool groups with the JS
object-spread `{...a, ...b, ...}`: keys of the earlier object keep
their insertion position but take the later object's value on
collision, and keys new to the later object are appended. -/

/-- First-match lookup in a name-keyed record. -/
def lookupRecord {α : Type} : List (String × α) → String → Option α
  | [], _ => none
  | (k, v) :: rest, key => if k = key then some v else lookupRecord rest key

/-- JS `{...a, ...b}` on name-keyed records. -/
def spread2 {α : Type} (a b : List (String × α)) : List (String × α) :=
  (a.map (fun kv => match lookupRecord b kv.1 with
    | some w => (kv.1, w)
    | none => kv)) ++
  b.filter (fun kv => (lookupRecord a kv.1).isNone)

/-- `{...g1, ...g2, ..., ...gn}` folded left over the groups, as in
`createAllTools`. -/
def spreadAll {α : Type} (groups : List (List (String × α))) :
    List (String × α) :=
  groups.foldl spread2 []

/-- The operation names defined by each tool group of
`src/tools/index.ts`, in spread order. -/
def toolGroupNames : List (List String) :=
  [ ["relay_get_chains"],
    ["relay_get_token_price"],
    ["relay_get_quote", "relay_get_multi_input_quote"],
    ["relay_get_execution_status", "relay_get_requests"],
    ["relay_transactions_index", "relay_transactions_single"],
    ["relay_get_currencies"],
    ["relay_swap_multi_input"] ]

/-! ## Pagination helper (`src/utils/pagination.ts`)

`fetchAllPages` loops `while (true)` fetching page 1, 2, ... with the
fixed batch size 100, appending each page's `data` to the accumulator,
and breaks when `hasMore` is false or the accumulator has reached
`maxItems` (warning about truncation in the latter case).  The loop is
modeled with explicit fuel (`none` = the loop has not terminated within
the given fuel); the `Bool` paired with the result records whether the
truncation warning was emitted. -/

/-- `response.pagination` of `PaginatedResponse`. -/
structure PaginationInfo where
  hasMore : Bool
deriving Repr

/-- `PaginatedResponse<T>` of `src/types/relay.ts`, as consumed by the
helper: the page's items and the pagination flag. -/
structure PaginatedResponse (T : Type) where
  data : List T
  pagination : PaginationInfo
deriving Repr

/-- One `while (true)` loop of `fetchAllPages`, with fuel. -/
def fetchAllPagesAux {T E : Type}
    (fetcher : Nat → Nat → Except E (PaginatedResponse T))
    (maxItems : Nat) :
    Nat → Nat → List T → Option (Except E (List T × Bool))
  | 0, _, _ => none
  | fuel + 1, page, acc =>
      match fetcher page 100 with
      | .error e => some (.error e)
      | .ok response =>
          let acc' := acc ++ response.data
          if response.pagination.hasMore = false ∨ maxItems ≤ acc'.length then
            some (.ok (acc', decide (maxItems ≤ acc'.length)))
          else
            fetchAllPagesAux fetcher maxItems fuel (page + 1) acc'

/-- `fetchAllPages(fetcher, _filters, maxItems = 10000)`: starts at
page 1 with an empty accumulator; `_filters` is accepted and ignored. -/
def fetchAllPages {T E F : Type}
    (fetcher : Nat → Nat → Except E (PaginatedResponse T))
    (_filters : F) (maxItems : Nat := 10000) (fuel : Nat) :
    Option (Except E (List T × Bool)) :=
  fetchAllPagesAux fetcher maxItems fuel 1 []

/-! ## Concrete inputs and comparison definitions -/

/-- `relay_get_quote` arguments with every required field except
`amount`. -/
def quoteArgsMissingAmount : Json :=
  .obj [("user", .str "0xabc"), ("originChainId", .num 1),
        ("destinationChainId", .num 10), ("originCurrency", .str "0xaaa"),
        ("destinationCurrency", .str "0xbbb")]

/-- `relay_get_quote` arguments with all required fields plus an
undeclared extra field `foo: 1`. -/
def quoteArgsWithFoo : Json :=
  .obj [("user", .str "0xabc"), ("originChainId", .num 1),
        ("destinationChainId", .num 10), ("originCurrency", .str "0xaaa"),
        ("destinationCurrency", .str "0xbbb"), ("amount", .str "1000000"),
        ("foo", .num 1)]

/-- What Zod's strip-mode parse makes of `quoteArgsWithFoo`: the same
object with `foo` removed. -/
def quoteParamsStripped : Json :=
  .obj [("user", .str "0xabc"), ("originChainId", .num 1),
        ("destinationChainId", .num 10), ("originCurrency", .str "0xaaa"),
        ("destinationCurrency", .str "0xbbb"), ("amount", .str "1000000")]

/-- Following the spec's words (section 7), a caller-visible
validation-error result: an error-marked result whose details payload
carries the per-field violation list (`validationErrors` in the error
class of `src/client/errors.ts`, `fieldErrors` in the spec's data
model).  Used only to compare the spec's claimed error surface with the
one the dispatch layer actually produces. -/
def specValidationErrorResult (r : CallToolResult) : Bool :=
  r.isError &&
  (match getKey r.body "details" with
   | some d => (getKey d "validationErrors").isSome || (getKey d "fieldErrors").isSome
   | none => false)

/-- A three-page source: pages 1 and 2 carry 100 items each, page 3
carries 40, `hasMore` is true, true, false; any other page (never
requested by a correct sequential walk) fails. -/
def threePageFetcher : Nat → Nat → Except Unit (PaginatedResponse Nat) :=
  fun p _ =>
    if p = 1 then .ok ⟨List.range' 0 100, ⟨true⟩⟩
    else if p = 2 then .ok ⟨List.range' 100 100, ⟨true⟩⟩
    else if p = 3 then .ok ⟨List.range' 200 40, ⟨false⟩⟩
    else .error ()

/-- A page source that answers page 1 successfully (one item, more to
come) and fails on every later page. -/
def errorPage2Fetcher : Nat → Nat → Except String (PaginatedResponse Nat) :=
  fun p _ => if p = 1 then .ok ⟨[0], ⟨true⟩⟩ else .error "boom"

/-- A page source that always reports `hasMore = true` with an empty
item list. -/
def emptyPageFetcher : Nat → Nat → Except Unit (PaginatedResponse Nat) :=
  fun _ _ => .ok ⟨[], ⟨true⟩⟩

/-- The concatenation of the items of pages `page, page+1, ...,
page+n-1` of a page family. -/
def dataConcat {T : Type} (pg : Nat → PaginatedResponse T)
    (page : Nat) : Nat → List T
  | 0 => []
  | n + 1 => dataConcat pg page n ++ (pg (page + n)).data

/-! ## Lemmas about the Zod object walk -/

/-- A required field absent from the input contributes its `Required`
issue to the walk, wherever it sits in the field list. -/
theorem zodWalk_required_missing (kvs : List (String × Json))
    (fields : List ZodField) (f : ZodField) (hf : f ∈ fields)
    (hreq : f.optional = false) (habs : lookupField kvs f.name = none) :
    ([f.name], "Required") ∈ (zodWalk kvs fields).1 := by
  induction fields with
  | nil => cases hf
  | cons g rest ih =>
      rcases List.mem_cons.mp hf with hg | hrest
      · subst hg
        simp only [zodWalk, habs, hreq]
        exact List.mem_cons_self _ _
      · have hmem := ih hrest
        simp only [zodWalk]
        cases hl : lookupField kvs g.name with
        | none =>
            cases hopt : g.optional with
            | true => simpa using hmem
            | false => exact List.mem_cons_of_mem _ hmem
        | some v =>
            cases hchk : checkTy g.ty v with
            | nil => simp only [hchk]; simpa using hmem
            | cons m ms =>
                simp only [hchk, List.mem_append]
                exact Or.inr hmem

/-- A present field failing one of its checks contributes the
corresponding issue to the walk. -/
theorem zodWalk_present_bad (kvs : List (String × Json))
    (fields : List ZodField) (f : ZodField) (v : Json) (msg : String)
    (hf : f ∈ fields) (hl : lookupField kvs f.name = some v)
    (hmsg : msg ∈ checkTy f.ty v) :
    ([f.name], msg) ∈ (zodWalk kvs fields).1 := by
  induction fields with
  | nil => cases hf
  | cons g rest ih =>
      rcases List.mem_cons.mp hf with hg | hrest
      · subst hg
        simp only [zodWalk, hl]
        cases hchk : checkTy f.ty v with
        | nil => rw [hchk] at hmsg; cases hmsg
        | cons m ms =>
            rw [hchk] at hmsg
            simp only [List.mem_append, List.mem_map]
            exact Or.inl ⟨msg, hmsg, rfl⟩
      · have hmem := ih hrest
        simp only [zodWalk]
        cases hlg : lookupField kvs g.name with
        | none =>
            cases hopt : g.optional with
            | true => simpa using hmem
            | false => exact List.mem_cons_of_mem _ hmem
        | some w =>
            cases hchk : checkTy g.ty w with
            | nil => simp only [hchk]; simpa using hmem
            | cons m ms =>
                simp only [hchk, List.mem_append]
                exact Or.inr hmem

/-- The walk's output never contains a key absent from the input:
Zod injects no defaults. -/
theorem zodWalk_out_absent (kvs : List (String × Json))
    (fields : List ZodField) (k : String)
    (habs : lookupField kvs k = none) :
    lookupField (zodWalk kvs fields).2 k = none := by
  induction fields with
  | nil => simp [zodWalk, lookupField]
  | cons g rest ih =>
      simp only [zodWalk]
      cases hlg : lookupField kvs g.name with
      | none =>
          cases hopt : g.optional with
          | true => simpa using ih
          | false => simpa using ih
      | some w =>
          cases hchk : checkTy g.ty w with
          | nil =>
              have hne : g.name ≠ k := by
                intro h
                rw [h, habs] at hlg
                cases hlg
              simp only [hchk, lookupField]
              simp [hne, ih]
          | cons m ms => simp only [hchk]; simpa using ih

/-- A failing parse of an object input reports exactly the walk's
issue list. -/
theorem zodParse_obj_error (fields : List ZodField)
    (kvs : List (String × Json)) (issues : List ZodIssue)
    (h : zodParse fields (.obj kvs) = .error issues) :
    issues = (zodWalk kvs fields).1 := by
  rcases hw : zodWalk kvs fields with ⟨is, out⟩
  cases is with
  | nil => simp [zodParse, hw] at h
  | cons i is' =>
      simp only [zodParse, hw] at h
      exact (Except.error.injEq _ _ ▸ h).symm

/-! ## Helper facts for the `relay_get_requests` limit bounds -/

/-- A `limit` below 1 is rejected with Zod's too-small issue. -/
theorem getRequests_limit_low (n : Int) (h : n < 1) :
    zodParse getRequestsSchema (.obj [("limit", .num n)]) =
      .error [(["limit"], "Number must be greater than or equal to 1")] := by
  have h2 : ¬ (50 < n) := by omega
  simp [zodParse, zodWalk, lookupField, checkTy, getRequestsSchema, h, h2]
  decide

/-- A `limit` above 50 is rejected with Zod's too-big issue. -/
theorem getRequests_limit_high (n : Int) (h : 50 < n) :
    zodParse getRequestsSchema (.obj [("limit", .num n)]) =
      .error [(["limit"], "Number must be less than or equal to 50")] := by
  have h2 : ¬ (n < 1) := by omega
  simp [zodParse, zodWalk, lookupField, checkTy, getRequestsSchema, h, h2]
  decide

/-! ## Claims -/

/-- C1: for `relay_get_quote` arguments carrying all required fields
plus an undeclared extra field `foo`, the Zod validation the handler
actually runs succeeds, silently strips `foo`, and forwards the
stripped parameters to the typed client — while the tool's own
advertised `inputSchema` (`additionalProperties: false`) declares
exactly `foo` a violation.  The code therefore contradicts its declared
closed contract: the extra field is silently dropped, not rejected. -/
theorem get_quote_extra_field_silently_stripped :
    zodParse getQuoteSchema quoteArgsWithFoo = .ok quoteParamsStripped ∧
    getKey quoteParamsStripped "foo" = none ∧
    relayGetQuoteHandler echoClient quoteArgsWithFoo = .ok quoteParamsStripped ∧
    closedSchemaViolations getQuoteInputSchemaProperties quoteArgsWithFoo = ["foo"] ∧
    getQuoteInputSchemaAdditionalProperties = false :=
  ⟨rfl, rfl, rfl, rfl, rfl⟩

/-- C3 counterexample: calling `relay_get_quote` without the required
`amount` produces the generic `Unexpected error` dispatch result, which
is not shaped as a ValidationError carrying a field-violation list. -/
theorem get_quote_missing_amount_not_validation_shaped :
    callTool [("relay_get_quote", relayGetQuoteHandler echoClient)]
        "relay_get_quote" quoteArgsMissingAmount =
      .ok (handleCaught (.zod [(["amount"], "Required")])) ∧
    specValidationErrorResult
        (handleCaught (.zod [(["amount"], "Required")])) = false :=
  ⟨rfl, rfl⟩

/-- C3 (amended): a tool call with a missing required or wrong-typed
field makes the handler throw the `ZodError` before the typed client is
ever invoked; the dispatch layer surfaces it as the generic
`Unexpected error` result carrying the `ZodError`'s message; the
`ZodError`'s issue list contains an entry for every offending field
path (not just the first); and `relay_get_quote` without `amount`
yields exactly one issue, at path `amount`. -/
theorem get_quote_validation_failure_surface :
    (∀ (schema : List ZodField) (client : Json → Except ThrownError Json)
        (args : Json) (issues : List ZodIssue),
        zodParse schema args = .error issues →
        toolHandler schema client args = .error (.zod issues)) ∧
    (∀ (client : Json → Except ThrownError Json) (args : Json)
        (issues : List ZodIssue),
        zodParse getQuoteSchema args = .error issues →
        callTool [("relay_get_quote", relayGetQuoteHandler client)]
            "relay_get_quote" args = .ok (handleCaught (.zod issues)) ∧
        (handleCaught (.zod issues)).isError = true ∧
        getKey (handleCaught (.zod issues)).body "error" =
          some (.str "Unexpected error") ∧
        getKey (handleCaught (.zod issues)).body "details" =
          some (.obj [("message", .str (zodMessage issues))])) ∧
    (∀ (kvs : List (String × Json)) (issues : List ZodIssue),
        zodParse getQuoteSchema (.obj kvs) = .error issues →
        ∀ f ∈ getQuoteSchema, f.optional = false →
        lookupField kvs f.name = none → ([f.name], "Required") ∈ issues) ∧
    (∀ (kvs : List (String × Json)) (issues : List ZodIssue),
        zodParse getQuoteSchema (.obj kvs) = .error issues →
        ∀ f ∈ getQuoteSchema, ∀ (v : Json) (msg : String),
        lookupField kvs f.name = some v → msg ∈ checkTy f.ty v →
        ([f.name], msg) ∈ issues) ∧
    zodParse getQuoteSchema quoteArgsMissingAmount =
      .error [(["amount"], "Required")] := by
  refine ⟨?_, ?_, ?_, ?_, rfl⟩
  · intro schema client args issues h
    simp [toolHandler, h]
  · intro client args issues h
    refine ⟨?_, rfl, rfl, rfl⟩
    simp [callTool, lookupTool, relayGetQuoteHandler, toolHandler, h]
  · intro kvs issues h f hf hreq habs
    rw [zodParse_obj_error _ _ _ h]
    exact zodWalk_required_missing kvs getQuoteSchema f hf hreq habs
  · intro kvs issues h f hf v msg hl hmsg
    rw [zodParse_obj_error _ _ _ h]
    exact zodWalk_present_bad kvs getQuoteSchema f v msg hf hl hmsg

/-- C3 witness: the amended theorem instantiated on the concrete
missing-`amount` call. -/
theorem get_quote_validation_failure_surface_witness :
    (((["amount"], "Required") : ZodIssue) ∈
        ([(["amount"], "Required")] : List ZodIssue)) ∧
    callTool [("relay_get_quote", relayGetQuoteHandler echoClient)]
        "relay_get_quote" quoteArgsMissingAmount =
      .ok (handleCaught (.zod [(["amount"], "Required")])) :=
  ⟨get_quote_validation_failure_surface.2.2.1
      [("user", .str "0xabc"), ("originChainId", .num 1),
       ("destinationChainId", .num 10), ("originCurrency", .str "0xaaa"),
       ("destinationCurrency", .str "0xbbb")]
      [(["amount"], "Required")] rfl ⟨"amount", .string, false⟩
      (by decide) rfl rfl,
   (get_quote_validation_failure_surface.2.1 echoClient
      quoteArgsMissingAmount [(["amount"], "Required")] rfl).1⟩

/-- C10: a `relay_get_requests` `limit` outside `[1, 50]`, or of
non-number type, fails Zod validation (so the handler throws before any
upstream call); an omitted `limit` passes validation and the validated
arguments carry no `limit` key — no default of 20 is injected. -/
theorem get_requests_limit_bounds :
    (∀ n : Int, n < 1 →
        zodParse getRequestsSchema (.obj [("limit", .num n)]) =
          .error [(["limit"], "Number must be greater than or equal to 1")]) ∧
    (∀ n : Int, 50 < n →
        zodParse getRequestsSchema (.obj [("limit", .num n)]) =
          .error [(["limit"], "Number must be less than or equal to 50")]) ∧
    (zodParse getRequestsSchema (.obj [("limit", .str "5")]) =
        .error [(["limit"], "Expected number, received string")]) ∧
    (∀ (client : Json → Except ThrownError Json) (n : Int),
        n < 1 ∨ 50 < n → ∃ issues,
        relayGetRequestsHandler client (.obj [("limit", .num n)]) =
          .error (.zod issues)) ∧
    (∀ (kvs : List (String × Json)) (out : Json),
        lookupField kvs "limit" = none →
        zodParse getRequestsSchema (.obj kvs) = .ok out →
        getKey out "limit" = none) ∧
    zodParse getRequestsSchema (.obj []) = .ok (.obj []) := by
  refine ⟨getRequests_limit_low, getRequests_limit_high, rfl, ?_, ?_, rfl⟩
  · intro client n h
    rcases h with h | h
    · exact ⟨[(["limit"], "Number must be greater than or equal to 1")],
        by simp [relayGetRequestsHandler, toolHandler,
          getRequests_limit_low n h]⟩
    · exact ⟨[(["limit"], "Number must be less than or equal to 50")],
        by simp [relayGetRequestsHandler, toolHandler,
          getRequests_limit_high n h]⟩
  · intro kvs out habs hp
    rcases hw : zodWalk kvs getRequestsSchema with ⟨is, o⟩
    cases is with
    | cons i is' => simp [zodParse, hw] at hp
    | nil =>
        simp only [zodParse, hw] at hp
        have hout : out = .obj o := by
          cases hp
          rfl
        subst hout
        have := zodWalk_out_absent kvs getRequestsSchema "limit" habs
        rw [hw] at this
        simpa [getKey] using this

/-- C10 witness: the bounds theorem instantiated at `limit = 0`,
`limit = 51`, and the empty argument object. -/
theorem get_requests_limit_bounds_witness :
    zodParse getRequestsSchema (.obj [("limit", .num 0)]) =
      .error [(["limit"], "Number must be greater than or equal to 1")] ∧
    zodParse getRequestsSchema (.obj [("limit", .num 51)]) =
      .error [(["limit"], "Number must be less than or equal to 50")] ∧
    getKey (.obj []) "limit" = none :=
  ⟨get_requests_limit_bounds.1 0 (by decide),
   get_requests_limit_bounds.2.1 51 (by decide),
   get_requests_limit_bounds.2.2.2.2.1 [] (.obj []) rfl rfl⟩

/-- C2: the client's response interceptor classifies every axios
failure: timeout/abort codes give a `ConnectionError`, a missing
response gives a `ConnectionError`, and any received error response
gives an `UpstreamAPIError` carrying status code, response body and
request body, with the message taken from the body's truthy `message`
(or `error`) field; in all three cases the caller receives one of the
two structured variants, never a raw transport exception. -/
theorem client_error_classification :
    (∀ e : AxiosErrorModel,
        (e.code = some "ECONNABORTED" ∨ e.code = some "ETIMEDOUT") →
        classifyAxiosError e =
          .connection "Request timed out" (some e.errMessage)) ∧
    (∀ e : AxiosErrorModel,
        ¬ (e.code = some "ECONNABORTED" ∨ e.code = some "ETIMEDOUT") →
        e.response = none →
        classifyAxiosError e =
          .connection "Network error - no response received" (some e.errMessage)) ∧
    (∀ (e : AxiosErrorModel) (status : Int) (data : Json),
        ¬ (e.code = some "ECONNABORTED" ∨ e.code = some "ETIMEDOUT") →
        e.response = some (status, data) →
        classifyAxiosError e =
          .api (apiErrorMessage status data) status data e.configData) ∧
    (∀ e : AxiosErrorModel, isClientStructured (classifyAxiosError e) = true) ∧
    (∀ (status : Int) (s : String) (rest : List (String × Json)), s ≠ "" →
        apiErrorMessage status (.obj (("message", .str s) :: rest)) = s) ∧
    classifyAxiosError
        ⟨none, some (400, .obj [("message", .str "no route")]), none,
         "Request failed with status code 400"⟩ =
      .api "no route" 400 (.obj [("message", .str "no route")]) none ∧
    apiErrorMessage 500 (.obj [("error", .str "oops")]) = "oops" ∧
    apiErrorMessage 502 (.obj []) = "HTTP 502 error" := by
  refine ⟨?_, ?_, ?_, ?_, ?_, rfl, rfl, rfl⟩
  · intro e h
    simp only [classifyAxiosError]
    rw [if_pos h]
  · intro e h hresp
    simp only [classifyAxiosError]
    rw [if_neg h, hresp]
  · intro e status data h hresp
    simp only [classifyAxiosError]
    rw [if_neg h, hresp]
  · intro e
    by_cases h : (e.code = some "ECONNABORTED" ∨ e.code = some "ETIMEDOUT")
    · simp only [classifyAxiosError]
      rw [if_pos h]
      rfl
    · rcases hr : e.response with _ | ⟨status, data⟩ <;>
        · simp only [classifyAxiosError]
          rw [if_neg h, hr]
          rfl
  · intro status s rest hs
    simp [apiErrorMessage, getKey, lookupField, jsTruthy, jsToString, hs]

/-- C2 witness: the classifier instantiated on a timeout, a DNS-style
failure without response, and a received 400 body. -/
theorem client_error_classification_witness :
    classifyAxiosError ⟨some "ETIMEDOUT", none, none, "timeout of 30000ms exceeded"⟩ =
      .connection "Request timed out" (some "timeout of 30000ms exceeded") ∧
    classifyAxiosError ⟨some "ENOTFOUND", none, none, "getaddrinfo ENOTFOUND api.relay.link"⟩ =
      .connection "Network error - no response received"
        (some "getaddrinfo ENOTFOUND api.relay.link") ∧
    apiErrorMessage 400 (.obj [("message", .str "no route")]) = "no route" :=
  ⟨client_error_classification.1 _ (Or.inr rfl),
   client_error_classification.2.1 _ (by decide) rfl,
   client_error_classification.2.2.2.2.1 400 "no route" [] (by decide)⟩

/-- C4 counterexample: the upstream failure of a body-less GET request
— exactly what the interceptor produces when a GET to `/chains` gets an
HTTP 500 with an empty body, since `error.config?.data` is `undefined`
for every GET — reaches the caller as an error result whose details
carry a status code and the response body but no request body:
`JSON.stringify` drops the `request` key, so the claimed always-present
payload enumeration fails at this reachable input. -/
theorem dispatch_get_error_lacks_request_body :
    classifyAxiosError
        ⟨none, some (500, .obj []), none,
         "Request failed with status code 500"⟩ =
      .api "HTTP 500 error" 500 (.obj []) none ∧
    callTool
        [("relay_get_chains",
          fun _ => .error (.api "HTTP 500 error" 500 (.obj []) none))]
        "relay_get_chains" (.obj []) =
      .ok (handleCaught (.api "HTTP 500 error" 500 (.obj []) none)) ∧
    getKey (handleCaught (.api "HTTP 500 error" 500 (.obj []) none)).body
        "details" = some (.obj [("statusCode", .num 500),
                                ("response", .obj [])]) ∧
    specErrorPayload (.api "HTTP 500 error" 500 (.obj []) none)
        (handleCaught (.api "HTTP 500 error" 500 (.obj []) none)) = false :=
  ⟨rfl, rfl, rfl, rfl⟩

/-- C4 (amended): when the dispatched tool exists, any error its
handler throws is converted by the catch block into an error-marked
result — the exception is never re-raised — and the result carries
both a human-readable message string and a details object; for
upstream API errors the details carry the status code and the response
body always, and the request body exactly when the original request
had one (GET requests have none); for connection errors the message
always, and the underlying-cause description exactly when one was
recorded; diagnostic text for everything else. -/
theorem dispatch_error_results_payload
    (tools : List (String × (Json → Except ThrownError Json)))
    (name : String) (handler : Json → Except ThrownError Json)
    (args : Json) (e : ThrownError)
    (hl : lookupTool tools name = some handler)
    (he : handler args = .error e) :
    callTool tools name args = .ok (handleCaught e) ∧
    (handleCaught e).isError = true ∧
    errorResultPayload e (handleCaught e) = true := by
  refine ⟨?_, ?_, ?_⟩
  · simp [callTool, hl, he]
  · cases e <;> rfl
  · cases e with
    | api m sc rd req => cases req <;> rfl
    | connection m o => cases o <;> rfl
    | validation m ve => rfl
    | zod i => rfl
    | generic m => rfl

/-- C4 witness: the dispatch theorem instantiated on one-tool tables
whose handlers throw a generic error, an upstream API error carrying a
request body, and a connection error carrying an underlying cause. -/
theorem dispatch_error_results_payload_witness :
    (callTool [("tool", fun _ => .error (.generic "boom"))] "tool" .null =
        .ok (handleCaught (.generic "boom")) ∧
      (handleCaught (.generic "boom")).isError = true ∧
      errorResultPayload (.generic "boom") (handleCaught (.generic "boom")) =
        true) ∧
    errorResultPayload
        (.api "no route" 400 (.obj [("message", .str "no route")])
          (some (.obj [("amount", .str "1000000")])))
        (handleCaught (.api "no route" 400
          (.obj [("message", .str "no route")])
          (some (.obj [("amount", .str "1000000")])))) = true ∧
    errorResultPayload
        (.connection "Request timed out" (some "timeout of 30000ms exceeded"))
        (handleCaught (.connection "Request timed out"
          (some "timeout of 30000ms exceeded"))) = true :=
  ⟨dispatch_error_results_payload
      [("tool", fun _ => .error (.generic "boom"))] "tool"
      (fun _ => .error (.generic "boom")) .null (.generic "boom") rfl rfl,
   (dispatch_error_results_payload
      [("tool2", fun _ => .error (.api "no route" 400
        (.obj [("message", .str "no route")])
        (some (.obj [("amount", .str "1000000")]))))] "tool2"
      (fun _ => .error (.api "no route" 400
        (.obj [("message", .str "no route")])
        (some (.obj [("amount", .str "1000000")])))) .null
      (.api "no route" 400 (.obj [("message", .str "no route")])
        (some (.obj [("amount", .str "1000000")]))) rfl rfl).2.2,
   (dispatch_error_results_payload
      [("tool3", fun _ => .error (.connection "Request timed out"
        (some "timeout of 30000ms exceeded")))] "tool3"
      (fun _ => .error (.connection "Request timed out"
        (some "timeout of 30000ms exceeded"))) .null
      (.connection "Request timed out"
        (some "timeout of 30000ms exceeded")) rfl rfl).2.2⟩

/-! ## Lemmas about the spread merge -/

/-- Lookup distributes over record append, preferring the left part. -/
theorem lookupRecord_append {α : Type} (xs ys : List (String × α)) (k : String) :
    lookupRecord (xs ++ ys) k =
      match lookupRecord xs k with
      | some v => some v
      | none => lookupRecord ys k := by
  induction xs with
  | nil => simp [lookupRecord]
  | cons kv rest ih =>
      rcases kv with ⟨k₀, v₀⟩
      by_cases h : k₀ = k
      · simp [lookupRecord, h]
      · simp [lookupRecord, h, ih]

/-- Lookup in the override-mapped left record of a spread. -/
theorem lookupRecord_map_override {α : Type} (a b : List (String × α)) (k : String) :
    lookupRecord (a.map (fun kv => match lookupRecord b kv.1 with
      | some w => (kv.1, w)
      | none => kv)) k =
      match lookupRecord a k with
      | none => none
      | some v =>
          match lookupRecord b k with
          | some w => some w
          | none => some v := by
  induction a with
  | nil => simp [lookupRecord]
  | cons kv rest ih =>
      rcases kv with ⟨k₀, v₀⟩
      by_cases h : k₀ = k
      · subst h
        rcases hb : lookupRecord b k₀ with _ | w <;>
          simp [lookupRecord, hb]
      · rcases hb : lookupRecord b k₀ with _ | w <;>
          simp [lookupRecord, h, hb, ih]

/-- Lookup in the new-keys-only right part of a spread. -/
theorem lookupRecord_filter_new {α : Type} (a b : List (String × α)) (k : String) :
    lookupRecord (b.filter (fun kv => (lookupRecord a kv.1).isNone)) k =
      if (lookupRecord a k).isNone then lookupRecord b k else none := by
  induction b with
  | nil => simp [lookupRecord]
  | cons kv rest ih =>
      rcases kv with ⟨k₁, w₁⟩
      by_cases h : k₁ = k
      · subst h
        rcases ha : lookupRecord a k₁ with _ | v <;>
          simp [List.filter_cons, lookupRecord, ha, ih]
      · rcases ha : lookupRecord a k₁ with _ | v <;>
          simp [List.filter_cons, lookupRecord, h, ha, ih]

/-- C5 counterexample: two tool groups defining the same operation name
are merged by `createAllTools`'s object spread without any error — the
later group's entry silently overrides the earlier one. -/
theorem spread_collision_silently_overridden :
    spreadAll [[("relay_dup", (1 : Nat))], [("relay_dup", 2)]] =
      [("relay_dup", 2)] ∧
    lookupRecord (spreadAll [[("relay_dup", (1 : Nat))], [("relay_dup", 2)]])
      "relay_dup" = some 2 :=
  ⟨rfl, rfl⟩

/-- C5 (amended): `createAllTools` merges the per-category groups with
JS object spread into a name-keyed mapping in which, on a collision,
the later group's entry silently overrides the earlier one — no
startup error exists; the seven actual tool groups happen to declare
pairwise distinct operation names, so no override occurs in the built
table. -/
theorem spread_merge_later_wins :
    (∀ (α : Type) (a b : List (String × α)) (k : String),
        lookupRecord (spread2 a b) k =
          match lookupRecord b k with
          | some w => some w
          | none => lookupRecord a k) ∧
    toolGroupNames.flatten.Nodup := by
  constructor
  · intro α a b k
    unfold spread2
    rw [lookupRecord_append, lookupRecord_map_override, lookupRecord_filter_new]
    rcases ha : lookupRecord a k with _ | v <;>
      rcases hb : lookupRecord b k with _ | w <;> simp
  · decide

/-! ## Lemmas about the pagination loop -/

/-- Step equation of the loop when the fetch errors. -/
theorem fetchAllPagesAux_step_error {T E : Type}
    (f : Nat → Nat → Except E (PaginatedResponse T)) (m fuel page : Nat)
    (acc : List T) (e : E) (hf : f page 100 = .error e) :
    fetchAllPagesAux f m (fuel + 1) page acc = some (.error e) := by
  simp only [fetchAllPagesAux, hf]

/-- Step equation of the loop when the fetch succeeds. -/
theorem fetchAllPagesAux_step_ok {T E : Type}
    (f : Nat → Nat → Except E (PaginatedResponse T)) (m fuel page : Nat)
    (acc : List T) (r : PaginatedResponse T) (hf : f page 100 = .ok r) :
    fetchAllPagesAux f m (fuel + 1) page acc =
      if r.pagination.hasMore = false ∨ m ≤ (acc ++ r.data).length then
        some (.ok (acc ++ r.data, decide (m ≤ (acc ++ r.data).length)))
      else fetchAllPagesAux f m fuel (page + 1) (acc ++ r.data) := by
  simp only [fetchAllPagesAux, hf]

/-- Splitting a page-range concatenation at the front. -/
theorem dataConcat_succ_left {T : Type} (pg : Nat → PaginatedResponse T)
    (page n : Nat) :
    dataConcat pg page (n + 1) = (pg page).data ++ dataConcat pg (page + 1) n := by
  induction n with
  | zero => simp [dataConcat]
  | succ n ih =>
      rw [dataConcat, ih, dataConcat]
      have hidx : page + (n + 1) = page + 1 + n := by omega
      rw [hidx, List.append_assoc]

/-- With pages of exactly 100 items that always report more, the loop
runs the accumulator up to the cap and stops there with the truncation
flag set. -/
theorem fetchAllPagesAux_cap {T E : Type}
    (fetcher : Nat → Nat → Except E (PaginatedResponse T))
    (pageData : Nat → List T)
    (hf : ∀ p, fetcher p 100 = .ok ⟨pageData p, ⟨true⟩⟩)
    (hlen : ∀ p, (pageData p).length = 100) :
    ∀ (k page : Nat) (acc : List T), 0 < k →
      acc.length + 100 * k = 10000 →
      ∃ l, fetchAllPagesAux fetcher 10000 k page acc = some (.ok (l, true)) ∧
        l.length = 10000 := by
  intro k
  induction k with
  | zero => intro page acc h0 _; omega
  | succ j ih =>
      intro page acc _ hsum
      have hacc : (acc ++ pageData page).length = acc.length + 100 := by
        simp [hlen page]
      rw [fetchAllPagesAux_step_ok fetcher 10000 j page acc _ (hf page)]
      dsimp only
      rcases Nat.eq_zero_or_pos j with hj | hj
      · subst hj
        have hfull : (acc ++ pageData page).length = 10000 := by omega
        rw [if_pos (Or.inr (by omega))]
        exact ⟨acc ++ pageData page, by simp [hfull], hfull⟩
      · have hcond : ¬ ((true = false) ∨
            10000 ≤ (acc ++ pageData page).length) := by
          intro hc
          rcases hc with hc | hc
          · cases hc
          · rw [hacc] at hc
            omega
        rw [if_neg hcond]
        exact ih (page + 1) (acc ++ pageData page) hj (by omega)

/-- The loop consults the fetcher only at batch size 100. -/
theorem fetchAllPagesAux_limit_independent {T E : Type}
    (f g : Nat → Nat → Except E (PaginatedResponse T))
    (hfg : ∀ p, f p 100 = g p 100) (m : Nat) :
    ∀ (fuel page : Nat) (acc : List T),
      fetchAllPagesAux f m fuel page acc = fetchAllPagesAux g m fuel page acc := by
  intro fuel
  induction fuel with
  | zero => intro page acc; rfl
  | succ fu ih =>
      intro page acc
      rcases hg : g page 100 with e | r
      · rw [fetchAllPagesAux_step_error f m fu page acc e ((hfg page).trans hg),
            fetchAllPagesAux_step_error g m fu page acc e hg]
      · rw [fetchAllPagesAux_step_ok f m fu page acc r ((hfg page).trans hg),
            fetchAllPagesAux_step_ok g m fu page acc r hg]
        by_cases h : (r.pagination.hasMore = false ∨ m ≤ (acc ++ r.data).length)
        · rw [if_pos h, if_pos h]
        · rw [if_neg h, if_neg h]
          exact ih (page + 1) (acc ++ r.data)

/-- An error from the fetch reached after `k` successful, continuing
pages propagates out of the loop unchanged. -/
theorem fetchAllPagesAux_error {T E : Type}
    (f : Nat → Nat → Except E (PaginatedResponse T)) (e : E)
    (pg : Nat → PaginatedResponse T) (m : Nat) :
    ∀ (k fuel page : Nat) (acc : List T), k < fuel →
      (∀ j, j < k → f (page + j) 100 = .ok (pg (page + j))) →
      (∀ j, j < k → (pg (page + j)).pagination.hasMore = true) →
      (∀ j, j < k → (acc ++ dataConcat pg page (j + 1)).length < m) →
      f (page + k) 100 = .error e →
      fetchAllPagesAux f m fuel page acc = some (.error e) := by
  intro k
  induction k with
  | zero =>
      intro fuel page acc hfuel _ _ _ herr
      rcases fuel with _ | fu
      · omega
      · rw [show page + 0 = page from rfl] at herr
        exact fetchAllPagesAux_step_error f m fu page acc e herr
  | succ k ih =>
      intro fuel page acc hfuel hsucc hmore hunder herr
      rcases fuel with _ | fu
      · omega
      · have h0 := hsucc 0 (by omega)
        have hm0 := hmore 0 (by omega)
        have hu0 := hunder 0 (by omega)
        rw [show page + 0 = page from rfl] at h0 hm0
        have hu0' : acc.length + (pg page).data.length < m := by
          have hd : dataConcat pg page 1 = (pg page).data := by
            simp [dataConcat]
          rw [hd] at hu0
          simpa [List.length_append] using hu0
        rw [fetchAllPagesAux_step_ok f m fu page acc _ h0,
            if_neg (by simp [hm0, List.length_append]; omega)]
        refine ih fu (page + 1) (acc ++ (pg page).data) (by omega) ?_ ?_ ?_ ?_
        · intro j hj
          have := hsucc (j + 1) (by omega)
          rwa [show page + (j + 1) = page + 1 + j by omega] at this
        · intro j hj
          have := hmore (j + 1) (by omega)
          rwa [show page + (j + 1) = page + 1 + j by omega] at this
        · intro j hj
          have := hunder (j + 1) (by omega)
          rw [dataConcat_succ_left] at this
          simpa [List.append_assoc] using this
        · rwa [show page + 1 + k = page + (k + 1) by omega]

/-- A normally-terminated loop either reached the cap or saw a page
with `hasMore = false`. -/
theorem fetchAllPagesAux_terminated {T E : Type}
    (f : Nat → Nat → Except E (PaginatedResponse T)) (m : Nat) :
    ∀ (fuel page : Nat) (acc : List T) (l : List T) (w : Bool),
      fetchAllPagesAux f m fuel page acc = some (.ok (l, w)) →
      m ≤ l.length ∨ ∃ p r, f p 100 = .ok r ∧ r.pagination.hasMore = false := by
  intro fuel
  induction fuel with
  | zero => intro page acc l w h; cases h
  | succ fu ih =>
      intro page acc l w h
      rcases hf : f page 100 with e | r
      · rw [fetchAllPagesAux_step_error f m fu page acc e hf] at h
        cases h
      · rw [fetchAllPagesAux_step_ok f m fu page acc r hf] at h
        by_cases hc : (r.pagination.hasMore = false ∨ m ≤ (acc ++ r.data).length)
        · rw [if_pos hc] at h
          rcases hc with hc | hc
          · exact Or.inr ⟨page, r, hf, hc⟩
          · have hl : l = acc ++ r.data := by
              injection h with h'
              injection h' with h''
              exact ((Prod.mk.injEq _ _ _ _).mp h'').1.symm
            exact Or.inl (hl ▸ hc)
        · rw [if_neg hc] at h
          exact ih (page + 1) (acc ++ r.data) l w h

/-- Against the always-more, always-empty page source the loop never
breaks: the accumulator never grows toward the cap. -/
theorem fetchAllPagesAux_empty_diverges (m : Nat) :
    ∀ (fuel page : Nat) (acc : List Nat), acc.length < m →
      fetchAllPagesAux emptyPageFetcher m fuel page acc = none := by
  intro fuel
  induction fuel with
  | zero => intro page acc _; rfl
  | succ fu ih =>
      intro page acc hlt
      rw [fetchAllPagesAux_step_ok emptyPageFetcher m fu page acc ⟨[], ⟨true⟩⟩ rfl,
          if_neg (by simp; omega)]
      exact ih (page + 1) (acc ++ []) (by simpa using hlt)

/-- C6: against a page source whose pages always report `hasMore` and
always carry exactly the requested batch of 100 items, `fetchAllPages`
with the default cap of 10000 terminates with exactly 10000 accumulated
items and signals the truncation through the warning flag — the result
is a success value, not an error. -/
theorem pagination_cap_truncates (T E : Type)
    (fetcher : Nat → Nat → Except E (PaginatedResponse T))
    (pageData : Nat → List T)
    (hf : ∀ p, fetcher p 100 = .ok ⟨pageData p, ⟨true⟩⟩)
    (hlen : ∀ p, (pageData p).length = 100) :
    ∃ l, fetchAllPages fetcher () 10000 100 = some (.ok (l, true)) ∧
      l.length = 10000 :=
  fetchAllPagesAux_cap fetcher pageData hf hlen 100 1 [] (by omega) (by simp)

/-- C6 witness: the cap theorem instantiated on the constant
100-zeros-per-page source. -/
theorem pagination_cap_truncates_witness :
    ∃ l : List Nat,
      fetchAllPages (E := Unit)
        (fun _ _ => .ok ⟨List.replicate 100 0, ⟨true⟩⟩) () 10000 100 =
        some (.ok (l, true)) ∧ l.length = 10000 :=
  pagination_cap_truncates Nat Unit
    (fun _ _ => .ok ⟨List.replicate 100 0, ⟨true⟩⟩)
    (fun _ => List.replicate 100 0) (fun _ => rfl) (fun _ => by simp)

set_option maxRecDepth 8192 in
/-- C7: `fetchAllPages` consults the page source only at the fixed
batch size 100 (any caller-level page size is irrelevant), walks pages
1, 2, 3, ... sequentially, and returns the pages' items concatenated in
fetch order: the 3-page source (100, 100, 40 items, `hasMore`
true/true/false) yields exactly the 240 original items in order,
duplicate-free and untruncated. -/
theorem pagination_sequential_fixed_batch :
    (∀ (T E F : Type) (f g : Nat → Nat → Except E (PaginatedResponse T)),
        (∀ p, f p 100 = g p 100) →
        ∀ (fl : F) (m fuel : Nat),
          fetchAllPages f fl m fuel = fetchAllPages g fl m fuel) ∧
    fetchAllPages threePageFetcher () 10000 3 =
      some (.ok (List.range 240, false)) ∧
    (List.range 240).Nodup := by
  refine ⟨?_, ?_, List.nodup_range 240⟩
  · intro T E F f g hfg fl m fuel
    exact fetchAllPagesAux_limit_independent f g hfg m fuel 1 []
  · rfl

/-- C7 witness: the batch-size-independence conjunct instantiated on
the 3-page source against its own limit-100 restriction. -/
theorem pagination_sequential_fixed_batch_witness :
    fetchAllPages threePageFetcher () 10000 3 =
      fetchAllPages (fun p _ => threePageFetcher p 100) () 10000 3 :=
  pagination_sequential_fixed_batch.1 Nat Unit Unit threePageFetcher
    (fun p _ => threePageFetcher p 100) (fun _ => rfl) () 10000 3

/-- C8: when the fetch of some page raises a `StructuredError` after
`k` successful, continuing, under-cap pages, `fetchAllPages` propagates
exactly that error to its caller — it never returns a silently
truncated item list for a failed run. -/
theorem pagination_error_propagation (T E : Type)
    (f : Nat → Nat → Except E (PaginatedResponse T)) (e : E) (k : Nat)
    (pg : Nat → PaginatedResponse T) (m : Nat)
    (hsucc : ∀ j, j < k → f (1 + j) 100 = .ok (pg (1 + j)))
    (hmore : ∀ j, j < k → (pg (1 + j)).pagination.hasMore = true)
    (hunder : ∀ j, j < k → (dataConcat pg 1 (j + 1)).length < m)
    (herr : f (1 + k) 100 = .error e)
    (fuel : Nat) (hfuel : k < fuel) :
    fetchAllPages f () m fuel = some (.error e) :=
  fetchAllPagesAux_error f e pg m k fuel 1 [] hfuel hsucc hmore
    (fun j hj => by simpa using hunder j hj) herr

/-- C8 witness: the propagation theorem instantiated on a source whose
second page fails. -/
theorem pagination_error_propagation_witness :
    fetchAllPages errorPage2Fetcher () 10 2 = some (.error "boom") :=
  pagination_error_propagation Nat String errorPage2Fetcher "boom" 1
    (fun _ => ⟨[0], ⟨true⟩⟩) 10
    (by
      intro j hj
      have hj0 : j = 0 := by omega
      subst hj0
      rfl)
    (fun _ _ => rfl)
    (by
      intro j hj
      have hj0 : j = 0 := by omega
      subst hj0
      decide)
    rfl 2 (by omega)

/-- C9 (implicit): `fetchAllPages` terminates only when some fetched
page reports `hasMore = false` or the accumulated count reaches the
cap; against a page source that always returns an empty item list with
`hasMore = true`, and any positive cap, the loop never terminates —
no iteration bound exists besides the item cap. -/
theorem pagination_termination_conditions :
    (∀ (T E F : Type) (f : Nat → Nat → Except E (PaginatedResponse T))
        (fl : F) (m fuel : Nat) (l : List T) (w : Bool),
        fetchAllPages f fl m fuel = some (.ok (l, w)) →
        m ≤ l.length ∨ ∃ p r, f p 100 = .ok r ∧ r.pagination.hasMore = false) ∧
    (∀ m, 0 < m → ∀ fuel,
        fetchAllPages emptyPageFetcher () m fuel = none) := by
  constructor
  · intro T E F f fl m fuel l w h
    exact fetchAllPagesAux_terminated f m fuel 1 [] l w h
  · intro m hm fuel
    exact fetchAllPagesAux_empty_diverges m fuel 1 [] (by simpa using hm)

set_option maxRecDepth 8192 in
/-- C9 witness: divergence of the empty source at cap 10000 within any
concrete fuel, and the termination condition evaluated on the 3-page
run. -/
theorem pagination_termination_conditions_witness :
    fetchAllPages emptyPageFetcher () 10000 7 = none ∧
    (10000 ≤ (List.range 240).length ∨
      ∃ p r, threePageFetcher p 100 = .ok r ∧ r.pagination.hasMore = false) :=
  ⟨pagination_termination_conditions.2 10000 (by omega) 7,
   pagination_termination_conditions.1 Nat Unit Unit threePageFetcher ()
     10000 3 (List.range 240) false rfl⟩

end RelayMCP
